import Mathlib

/-!
Verification of the `FreeListAllocator` of src/src/allocator/free_list.cpp
(first-fit free-list allocator over an address-ordered augmented red-black
tree, with segregated small-class lists), together with the part of the
`VisualizationArena` façade (src/src/interface/visualization_arena.cpp,
sharded version) that claims depend on.

Modelling conventions:
* Machine pointers become natural-number addresses; the allocator's
  `base_` is kept as an explicit field so range checks (`ptr < base_`,
  `ptr >= base_ + size_`) translate literally.
* `std::size_t` arithmetic that can wrap (the `allocated_ +=`/`-=` and
  `free_blocks_ ++`/`--` statistics updates, and the `(size + 15) & ~15`
  round-up) is modelled with explicit arithmetic modulo `2 ^ 64`.
* The intrusive `FreeBlock` red-black tree carries `size`, `subtree_max`
  and `color` per node.  The `parent` pointer is not stored: it is the
  reversed root path, made explicit as a list of `Frame`s (a zipper)
  wherever the C++ walks parent pointers.  Rebuilding a tree from a
  zipper keeps each frame's stored `subtree_max` as-is, so a stale
  `subtree_max` in the C++ is a stale `subtree_max` here: maxima are
  recomputed only at the points where the source calls `update_max`
  or assigns `subtree_max` directly.
* `std::abort()` (the FATAL guards and `verify_tree` failures) becomes a
  dedicated `fatal` outcome / `Option.none`; returned error codes stay
  observable values.
-/

namespace MmapViz

/-- Node colors (free_list.hpp, `enum class Color : bool`). -/
inductive Color where
  | red
  | black
deriving DecidableEq

/-- The intrusive red-black tree of free blocks.  A `node` carries the
`FreeBlock` fields `color`, `size`, the block's address (the node lives at the
start of the block it describes, so the pointer value *is* the address used as
the tree key), `subtree_max`, and the two children.  The `parent` pointer is
represented by zipper paths instead (see `Frame`).  `nil` is the shared
sentinel: color black, size 0, `subtree_max` 0. -/
inductive RBT where
  | nil
  | node (c : Color) (sz ad mx : Nat) (l r : RBT)
deriving DecidableEq

namespace RBT

/-- Read a node's stored `subtree_max`; the sentinel's `subtree_max` is 0
(set once in the constructor and never changed). -/
def maxOf : RBT → Nat
  | .nil => 0
  | .node _ _ _ m _ _ => m

/-- `FreeListAllocator::update_max(x)`: recompute `x->subtree_max` from
`x->size` and the children's *stored* maxima.  The C++ guards each child with
`!= nil_`; since the sentinel's stored maximum is 0 and sizes are naturals,
taking `Nat.max` with 0 is the same thing. -/
def updMax : RBT → RBT
  | .nil => .nil
  | .node c s a _ l r => .node c s a (Nat.max s (Nat.max (maxOf l) (maxOf r))) l r

/-- Inorder list of `(address, size)` pairs of the tree's nodes. -/
def nodesOf : RBT → List (Nat × Nat)
  | .nil => []
  | .node _ s a _ l r => nodesOf l ++ (a, s) :: nodesOf r

/-- Number of nodes. -/
def sizeRBT : RBT → Nat
  | .nil => 0
  | .node _ _ _ _ l r => sizeRBT l + sizeRBT r + 1

/-- The `subtree_max` invariant at every node:
`n.subtree_max = max(n.size, n.left.subtree_max, n.right.subtree_max)`,
the sentinel's maximum being 0. -/
def maxOk : RBT → Bool
  | .nil => true
  | .node _ s _ m l r =>
      maxOk l && maxOk r && (m == Nat.max s (Nat.max (maxOf l) (maxOf r)))

/-- Address-ordering (binary-search-tree) property of the tree: all addresses
in the left subtree are below the node's, all in the right subtree above. -/
def orderedB : RBT → Bool
  | .nil => true
  | .node _ _ a _ l r =>
      orderedB l && orderedB r &&
      (nodesOf l).all (fun p => decide (p.1 < a)) &&
      (nodesOf r).all (fun p => decide (a < p.1))

/-- `FreeListAllocator::verify_tree`: walk the tree, abort unless every node
address is 16-byte aligned and its `subtree_max` equals the recomputed
expectation.  (The parent-pointer consistency check of the source is about the
pointer representation and has no content here: a zipper parent is correct by
construction.)  `false` means the source would `std::abort()`. -/
def verifyTree : RBT → Bool
  | .nil => true
  | .node _ s a m l r =>
      a % 16 == 0 && verifyTree l && verifyTree r &&
      (m == Nat.max s (Nat.max (maxOf l) (maxOf r)))

/-- `FreeListAllocator::find_first_fit(size)`: descend from the root; go left
when the left subtree's stored maximum reaches `size`, otherwise take the
current node when it fits, otherwise go right when the right subtree's stored
maximum reaches `size`, otherwise the sentinel.  Returns the node's
`(address, size)`, `none` standing for the sentinel. -/
def find_first_fit (t : RBT) (size : Nat) : Option (Nat × Nat) :=
  match t with
  | .nil => none
  | .node _ s a _ l r =>
      if l ≠ .nil ∧ size ≤ maxOf l then
        find_first_fit l size
      else if size ≤ s then
        some (a, s)
      else if r ≠ .nil ∧ size ≤ maxOf r then
        find_first_fit r size
      else
        none

@[simp] theorem maxOf_nil : maxOf .nil = 0 := rfl

@[simp] theorem maxOf_node (c : Color) (s a m : Nat) (l r : RBT) :
    maxOf (.node c s a m l r) = m := rfl

/-- Every size stored in a `maxOk` tree is bounded by the root's stored
`subtree_max`. -/
theorem maxOk_le (t : RBT) (h : maxOk t = true) :
    ∀ p ∈ nodesOf t, p.2 ≤ maxOf t := by
  induction t with
  | nil => simp [nodesOf]
  | node c s a m l r ihl ihr =>
    simp only [maxOk, Bool.and_eq_true, beq_iff_eq] at h
    obtain ⟨⟨hml, hmr⟩, hmeq⟩ := h
    intro p hp
    simp only [nodesOf, List.mem_append, List.mem_cons] at hp
    simp only [maxOf, hmeq]
    rcases hp with hp | hp | hp
    · exact le_trans (ihl hml p hp) (le_trans (Nat.le_max_left _ _) (Nat.le_max_right _ _))
    · subst hp; exact Nat.le_max_left _ _
    · exact le_trans (ihr hmr p hp) (le_trans (Nat.le_max_right _ _) (Nat.le_max_right _ _))

/-- In a nonempty `maxOk` tree, some node attains the root's stored
`subtree_max`. -/
theorem maxOk_attained (t : RBT) (h : maxOk t = true) (hne : t ≠ .nil) :
    ∃ p ∈ nodesOf t, maxOf t ≤ p.2 := by
  induction t with
  | nil => exact absurd rfl hne
  | node c s a m l r ihl ihr =>
    simp only [maxOk, Bool.and_eq_true, beq_iff_eq] at h
    obtain ⟨⟨hml, hmr⟩, hmeq⟩ := h
    rw [maxOf_node, hmeq]
    rcases max_choice s (Nat.max (maxOf l) (maxOf r)) with h1 | h1
    · have h1' : Nat.max s (Nat.max (maxOf l) (maxOf r)) = s := h1
      rw [h1']
      exact ⟨(a, s), by simp [nodesOf], le_refl s⟩
    · have h1' : Nat.max s (Nat.max (maxOf l) (maxOf r)) = Nat.max (maxOf l) (maxOf r) := h1
      rw [h1']
      rcases max_choice (maxOf l) (maxOf r) with h2 | h2
      · have h2' : Nat.max (maxOf l) (maxOf r) = maxOf l := h2
        rw [h2']
        by_cases hl : l = RBT.nil
        · subst hl
          rw [maxOf_nil]
          exact ⟨(a, s), by simp [nodesOf], Nat.zero_le s⟩
        · obtain ⟨p, hp, hple⟩ := ihl hml hl
          exact ⟨p, by simp [nodesOf, hp], hple⟩
      · have h2' : Nat.max (maxOf l) (maxOf r) = maxOf r := h2
        rw [h2']
        by_cases hr : r = RBT.nil
        · subst hr
          rw [maxOf_nil]
          exact ⟨(a, s), by simp [nodesOf], Nat.zero_le s⟩
        · obtain ⟨p, hp, hple⟩ := ihr hmr hr
          exact ⟨p, by simp [nodesOf, hp], hple⟩

end RBT

open RBT in
/-- C1.  For every tree satisfying the allocator's documented structural
invariants (address ordering and correctness of `subtree_max`, spec §3
invariants 4 and the address-ordered-tree data model) and every requested
size, `find_first_fit` returns the lowest-address node whose size is at least
the request, or the sentinel (`none`) exactly when no tree node is large
enough. -/
theorem find_first_fit_leftmost (t : RBT) (size : Nat)
    (ho : orderedB t = true) (hm : maxOk t = true) :
    (find_first_fit t size = none → ∀ p ∈ nodesOf t, p.2 < size) ∧
    (∀ a s, find_first_fit t size = some (a, s) →
      (a, s) ∈ nodesOf t ∧ size ≤ s ∧
      ∀ p ∈ nodesOf t, size ≤ p.2 → a ≤ p.1) := by
  induction t with
  | nil => simp [find_first_fit, nodesOf]
  | node c s0 a0 m0 l r ihl ihr =>
    simp only [orderedB, Bool.and_eq_true, List.all_eq_true, decide_eq_true_eq] at ho
    obtain ⟨⟨⟨hol, hor⟩, hla⟩, hra⟩ := ho
    have hm' := hm
    simp only [maxOk, Bool.and_eq_true, beq_iff_eq] at hm'
    obtain ⟨⟨hml, hmr⟩, _⟩ := hm'
    by_cases hc1 : l ≠ RBT.nil ∧ size ≤ maxOf l
    · -- descend left: a candidate exists on the left, the leftmost fit is there
      obtain ⟨q, hq, hqle⟩ := maxOk_attained l hml hc1.1
      constructor
      · intro hnone
        rw [find_first_fit, if_pos hc1] at hnone
        have := (ihl hol hml).1 hnone q hq
        omega
      · intro a s hsome
        rw [find_first_fit, if_pos hc1] at hsome
        obtain ⟨hmem, hfit, hleft⟩ := (ihl hol hml).2 a s hsome
        refine ⟨by simp [nodesOf, hmem], hfit, ?_⟩
        intro p hp hpfit
        simp only [nodesOf, List.mem_append, List.mem_cons] at hp
        have haa0 : a < a0 := hla (a, s) hmem
        rcases hp with hp | hp | hp
        · exact hleft p hp hpfit
        · subst hp; omega
        · have := hra p hp; omega
    · -- no candidate on the left
      have hlnone : ∀ p ∈ nodesOf l, p.2 < size := by
        intro p hp
        rcases not_and_or.mp hc1 with hl | hl
        · rw [not_not.mp hl] at hp; simp [nodesOf] at hp
        · have := maxOk_le l hml p hp; omega
      by_cases hc2 : size ≤ s0
      · -- the current node fits and wins
        constructor
        · intro hnone
          rw [find_first_fit, if_neg hc1, if_pos hc2] at hnone
          exact absurd hnone (by simp)
        · intro a s hsome
          rw [find_first_fit, if_neg hc1, if_pos hc2] at hsome
          obtain ⟨ha, hs⟩ : a0 = a ∧ s0 = s := by
            simpa using hsome
          subst ha; subst hs
          refine ⟨by simp [nodesOf], hc2, ?_⟩
          intro p hp hpfit
          simp only [nodesOf, List.mem_append, List.mem_cons] at hp
          rcases hp with hp | hp | hp
          · exact absurd hpfit (by have := hlnone p hp; omega)
          · subst hp; omega
          · have := hra p hp; omega
      · by_cases hc3 : r ≠ RBT.nil ∧ size ≤ maxOf r
        · -- descend right
          constructor
          · intro hnone
            rw [find_first_fit, if_neg hc1, if_neg hc2, if_pos hc3] at hnone
            intro p hp
            simp only [nodesOf, List.mem_append, List.mem_cons] at hp
            rcases hp with hp | hp | hp
            · exact hlnone p hp
            · subst hp; omega
            · exact (ihr hor hmr).1 hnone p hp
          · intro a s hsome
            rw [find_first_fit, if_neg hc1, if_neg hc2, if_pos hc3] at hsome
            obtain ⟨hmem, hfit, hright⟩ := (ihr hor hmr).2 a s hsome
            refine ⟨by simp [nodesOf, hmem], hfit, ?_⟩
            intro p hp hpfit
            simp only [nodesOf, List.mem_append, List.mem_cons] at hp
            rcases hp with hp | hp | hp
            · exact absurd hpfit (by have := hlnone p hp; omega)
            · subst hp; omega
            · exact hright p hp hpfit
        · -- nothing fits anywhere
          have hrnone : ∀ p ∈ nodesOf r, p.2 < size := by
            intro p hp
            rcases not_and_or.mp hc3 with hr3 | hr3
            · rw [not_not.mp hr3] at hp; simp [nodesOf] at hp
            · have := maxOk_le r hmr p hp; omega
          constructor
          · intro _
            intro p hp
            simp only [nodesOf, List.mem_append, List.mem_cons] at hp
            rcases hp with hp | hp | hp
            · exact hlnone p hp
            · subst hp; omega
            · exact hrnone p hp
          · intro a s hsome
            rw [find_first_fit, if_neg hc1, if_neg hc2, if_neg hc3] at hsome
            exact absurd hsome (by simp)

/-- Concrete instantiation of `find_first_fit_leftmost`: a three-node
address-ordered tree with correct maxima; the request 40 is served by the
lowest-address node of size ≥ 40 (address 16, size 50). -/
def wtreeC1 : RBT :=
  .node .black 30 32 50 (.node .red 50 16 50 .nil .nil) (.node .red 40 48 40 .nil .nil)

open RBT in
/-- Witness for `find_first_fit_leftmost` at `wtreeC1` and request 40. -/
theorem find_first_fit_leftmost_witness :
    (16, 50) ∈ nodesOf wtreeC1 ∧ 40 ≤ 50 ∧
    ∀ p ∈ nodesOf wtreeC1, 40 ≤ p.2 → 16 ≤ p.1 :=
  (find_first_fit_leftmost wtreeC1 40 (by decide) (by decide)).2 16 50 (by decide)

namespace RBT

/-- Which child of its parent a node is. -/
inductive Dir where
  | left
  | right
deriving DecidableEq

/-- One step of a parent-pointer chain: the parent node's fields together with
the side on which the chain continues (`d`) and the untouched sibling subtree
(`other`).  A list of frames, innermost parent first, replaces the C++
`parent` pointers: the node at the top of the list is the immediate parent,
the last frame is the root. -/
structure Frame where
  c : Color
  sz : Nat
  ad : Nat
  mx : Nat
  d : Dir
  other : RBT
deriving DecidableEq

/-- Rebuild the parent node from a frame and the child occupying the chain's
side.  Stored `subtree_max` values are kept as-is: rebuilding performs no
`update_max`. -/
def Frame.close (f : Frame) (t : RBT) : RBT :=
  match f.d with
  | .left => .node f.c f.sz f.ad f.mx t f.other
  | .right => .node f.c f.sz f.ad f.mx f.other t

/-- Rebuild the parent node with both children given explicitly (the chain's
side first). -/
def Frame.closeBoth (f : Frame) (t o : RBT) : RBT :=
  match f.d with
  | .left => .node f.c f.sz f.ad f.mx t o
  | .right => .node f.c f.sz f.ad f.mx o t

/-- Rebuild the whole tree from a subtree and its parent chain. -/
def plug (t : RBT) : List Frame → RBT
  | [] => t
  | f :: rest => plug (f.close t) rest

/-- The ascending `update_max` walk of `update_max_upwards` applied to a
parent chain: recompute each frame's `subtree_max` from its size, the
(already updated) maximum coming from below, and the sibling's stored
maximum, bottom-up. -/
def refreshFrames (childMax : Nat) : List Frame → List Frame
  | [] => []
  | f :: rest =>
      let m := Nat.max f.sz (Nat.max childMax (maxOf f.other))
      { f with mx := m } :: refreshFrames m rest

/-- `FreeListAllocator::update_max_upwards(x)` for the subtree at the hole:
update `x` itself, then every ancestor, returning the updated subtree and
chain. -/
def updMaxUpwards (t : RBT) (p : List Frame) : RBT × List Frame :=
  let t2 := updMax t
  (t2, refreshFrames (maxOf t2) p)

/-- `FreeListAllocator::left_rotate(x)` restricted to the subtree rooted at
`x` (the parent rewiring is the enclosing zipper frame, which is unchanged by
a rotation).  The assignment `y->subtree_max = x->subtree_max` of the source
is immediately overwritten by `update_max(y)` and therefore not represented.
When `x->right` is the sentinel the source would splice the sentinel into the
tree (corrupting it); that situation is unreachable from the fixup call sites
and is modelled as a no-op. -/
def leftRotate : RBT → RBT
  | .node cx sx ax mx lx (.node cy sy ay my ly ry) =>
      let x2 := updMax (.node cx sx ax mx lx ly)
      updMax (.node cy sy ay my x2 ry)
  | t => t

/-- `FreeListAllocator::right_rotate(x)`, mirror image of `leftRotate`. -/
def rightRotate : RBT → RBT
  | .node cx sx ax mx (.node cy sy ay my ly ry) rx =>
      let x2 := updMax (.node cx sx ax mx ry rx)
      updMax (.node cy sy ay my ly x2)
  | t => t

/-- Recolor the root of a subtree. -/
def setColor (t : RBT) (c : Color) : RBT :=
  match t with
  | .nil => .nil
  | .node _ s a m l r => .node c s a m l r

/-- Test whether the subtree's root is a red node (the sentinel is black). -/
def isRed : RBT → Bool
  | .node .red _ _ _ _ _ => true
  | _ => false

/-- The descent loop of `insert_node`: walk down comparing the new node's
address (the C++ compares the pointers `z < x`; nodes live at their block's
address), collecting the parent chain.  Equal addresses go right, as in the
source's `else` branch. -/
def insertDescend (t : RBT) (za : Nat) (acc : List Frame) : List Frame :=
  match t with
  | .nil => acc
  | .node c s a m l r =>
      if za < a then insertDescend l za (⟨c, s, a, m, .left, r⟩ :: acc)
      else insertDescend r za (⟨c, s, a, m, .right, l⟩ :: acc)

/-- `FreeListAllocator::rb_insert_fixup(z)`, on the zipper: `z` is the
subtree at the hole, the list holds its ancestors (parent first).  The loop
runs while the parent exists and is red.  When the parent is a red root the
source would walk into the sentinel as grandparent and rotate it
(unreachable: the root is black whenever the parent chain has one element);
modelled as loop exit.  The final `root_->color = Black` is applied by
`insert_node` after the plug. -/
def insFixupGo (z : RBT) : List Frame → RBT
  | [] => z
  | [pf] => plug z [pf]
  | pf :: gf :: rest =>
      if pf.c ≠ .red then plug z (pf :: gf :: rest)
      else
        let uncle := gf.other
        if isRed uncle then
          -- recolor parent and uncle black, grandparent red; climb two levels
          let pnode := setColor (pf.close z) .black
          let unc2 := setColor uncle .black
          let gnode := setColor (gf.closeBoth pnode unc2) .red
          insFixupGo gnode rest
        else
          match gf.d, pf.d with
          | .left, .right =>
              -- z is a right child under a left parent: z := parent,
              -- left_rotate(z), then recolor and right_rotate(grandparent)
              let p2 := leftRotate (pf.close z)
              let gnode := RBT.node .red gf.sz gf.ad gf.mx (setColor p2 .black) uncle
              plug (rightRotate gnode) rest
          | .left, .left =>
              let gnode := RBT.node .red gf.sz gf.ad gf.mx (setColor (pf.close z) .black) uncle
              plug (rightRotate gnode) rest
          | .right, .left =>
              let p2 := rightRotate (pf.close z)
              let gnode := RBT.node .red gf.sz gf.ad gf.mx uncle (setColor p2 .black)
              plug (leftRotate gnode) rest
          | .right, .right =>
              let gnode := RBT.node .red gf.sz gf.ad gf.mx uncle (setColor (pf.close z) .black)
              plug (leftRotate gnode) rest

/-- Recolor the root of the whole tree black (`root_->color = Black`). -/
def blackenRoot (t : RBT) : RBT := setColor t .black

/-- `FreeListAllocator::insert_node(z)` for a free block of size `zsz` living
at address `za`.  The FATAL guards (garbage size above 1 GiB or zero,
misaligned node pointer) become `none`, meaning `std::abort()`.  Otherwise:
binary descent by address, attach `z` red with `subtree_max = size` and
sentinel children, `update_max_upwards(z)`, then `rb_insert_fixup(z)` and the
final blackening of the root. -/
def insert_node (t : RBT) (zsz za : Nat) : Option RBT :=
  if zsz > 1024 * 1024 * 1024 ∨ zsz = 0 then none
  else if za % 16 ≠ 0 then none
  else
    let path := insertDescend t za []
    let z : RBT := .node .red zsz za zsz .nil .nil
    let path2 := refreshFrames (maxOf z) path
    some (blackenRoot (insFixupGo z path2))

/-- Locate the node with address `za` and return its parent chain and the
subtree rooted at it.  The C++ `delete_node(z)` receives the node pointer
directly; with the zipper representation the node's position is recovered by
searching for its (unique) address. -/
def findPath (t : RBT) (za : Nat) (acc : List Frame) : Option (List Frame × RBT) :=
  match t with
  | .nil => none
  | .node c s a m l r =>
      if a = za then some (acc, .node c s a m l r)
      else
        match findPath l za (⟨c, s, a, m, .left, r⟩ :: acc) with
        | some res => some res
        | none => findPath r za (⟨c, s, a, m, .right, l⟩ :: acc)

/-- `FreeListAllocator::minimum(x)` together with the parent chain walked:
descend left links until the left child is the sentinel.  Frames are
accumulated innermost-first on top of `acc`. -/
def minDescend (t : RBT) (acc : List Frame) : List Frame × RBT :=
  match t with
  | .node c s a m (.node lc ls la lm ll lr) r =>
      minDescend (.node lc ls la lm ll lr) (⟨c, s, a, m, .left, r⟩ :: acc)
  | t => (acc, t)

/-- The `if (x != nil_) x->color = Black` epilogue of `rb_delete_fixup`. -/
def blacken : RBT → RBT
  | .nil => .nil
  | .node _ s a m l r => .node .black s a m l r

/-- Left child of a subtree's root; the sentinel's children are the sentinel
itself (set once in the constructor). -/
def leftChild : RBT → RBT
  | .nil => .nil
  | .node _ _ _ _ l _ => l

/-- Right child of a subtree's root. -/
def rightChild : RBT → RBT
  | .nil => .nil
  | .node _ _ _ _ _ r => r

/-- `FreeListAllocator::rb_delete_fixup(x, x_parent)` on the zipper: `x` is
the subtree that replaced the spliced-out node, the frame list its parent
chain (parent first; `x_parent` is the head frame).  The loop runs while `x`
is not the root and is black (the sentinel counts as black).  Case numbers
follow CLRS: (1) red sibling — recolor, rotate at the parent, re-examine;
(2) black sibling with black children — recolor the sibling red and climb;
(3) black sibling with near red child — rotate at the sibling, fall into (4);
(4) black sibling with far red child — recolor, rotate at the parent, set
`x = root_`, ending the loop, after which the root is blackened.  Rotations
recompute `subtree_max` exactly where `left_rotate`/`right_rotate` do;
recoloring steps leave every stored maximum untouched.  The fuel argument
bounds the loop; it cannot run out on trees whose sibling structure is
consistent (case 1 is always followed by 2, 3 or 4). -/
def delFixup (fuel : Nat) (x : RBT) (path : List Frame) : RBT :=
  match fuel with
  | 0 => plug x path
  | fuel + 1 =>
    match path with
    | [] => blacken x
    | f :: rest =>
      if isRed x then plug (blacken x) (f :: rest)
      else
        match f.d with
        | .left =>
          (match f.other with
          | .node .red ws wa _ wl wr =>
              -- case 1: blacken w, redden the parent, left_rotate(parent)
              let pmx := Nat.max f.sz (Nat.max (maxOf x) (maxOf wl))
              let wmx := Nat.max ws (Nat.max pmx (maxOf wr))
              delFixup fuel x
                (⟨.red, f.sz, f.ad, pmx, .left, wl⟩ :: ⟨.black, ws, wa, wmx, .left, wr⟩ :: rest)
          | w =>
              if ¬ isRed (leftChild w) ∧ ¬ isRed (rightChild w) then
                -- case 2: redden w (if not the sentinel) and climb
                delFixup fuel (f.closeBoth x (setColor w .red)) rest
              else
                match w with
                | .node wc ws wa wm wl wr =>
                  let w2 :=
                    if ¬ isRed wr then
                      -- case 3: blacken w->left, redden w, right_rotate(w)
                      rightRotate (.node .red ws wa wm (setColor wl .black) wr)
                    else
                      .node wc ws wa wm wl wr
                  -- case 4: w takes the parent's color, parent black,
                  -- w->right black, left_rotate(parent); x = root_
                  (match w2 with
                  | .node _ w2s w2a _ w2l w2r =>
                      let p2 := updMax (.node .black f.sz f.ad f.mx x w2l)
                      blackenRoot (plug (updMax (.node f.c w2s w2a 0 p2 (setColor w2r .black))) rest)
                  | .nil => blackenRoot (plug x (f :: rest)))
                | .nil => blackenRoot (plug x (f :: rest)))
        | .right =>
          (match f.other with
          | .node .red ws wa _ wl wr =>
              let pmx := Nat.max f.sz (Nat.max (maxOf wr) (maxOf x))
              let wmx := Nat.max ws (Nat.max (maxOf wl) pmx)
              delFixup fuel x
                (⟨.red, f.sz, f.ad, pmx, .right, wr⟩ :: ⟨.black, ws, wa, wmx, .right, wl⟩ :: rest)
          | w =>
              if ¬ isRed (rightChild w) ∧ ¬ isRed (leftChild w) then
                delFixup fuel (f.closeBoth x (setColor w .red)) rest
              else
                match w with
                | .node wc ws wa wm wl wr =>
                  let w2 :=
                    if ¬ isRed wl then
                      -- mirror case 3: blacken w->right, redden w, left_rotate(w)
                      leftRotate (.node .red ws wa wm wl (setColor wr .black))
                    else
                      .node wc ws wa wm wl wr
                  (match w2 with
                  | .node _ w2s w2a _ w2l w2r =>
                      let p2 := updMax (.node .black f.sz f.ad f.mx w2r x)
                      blackenRoot (plug (updMax (.node f.c w2s w2a 0 (setColor w2l .black) p2)) rest)
                  | .nil => blackenRoot (plug x (f :: rest)))
                | .nil => blackenRoot (plug x (f :: rest)))

/-- Fuel that certainly covers `rb_delete_fixup`'s iterations on a tree of
the given node count and starting depth. -/
def fixupFuel (t : RBT) (depth : Nat) : Nat := 3 * sizeRBT t + depth + 8

/-- `FreeListAllocator::delete_node(z)` for the node living at address `za`.
Follows CLRS deletion with the source's `subtree_max` maintenance:
* one-child cases splice the child in and walk `update_max` from the old
  parent (`fix_start = z->parent`) to the root;
* the two-children case replaces `z` by `y = minimum(z->right)`; when `y` is
  not `z`'s child, `y` is first spliced out of the right subtree
  (`rb_transplant(y, y->right)`), takes over `z`'s children and color, gets
  `update_max(y)`, and the walk then runs from `y`'s old parent to the root
  (passing through `y` again, now with refreshed children, which is what the
  composed `refreshFrames` below computes);
* if the removed node (`y`'s original color) was black, `rb_delete_fixup`
  runs on the splice point.
A `za` not present in the tree cannot occur (the C++ is handed the node
itself); it is modelled as a no-op. -/
def delete_node (t : RBT) (za : Nat) : RBT :=
  match findPath t za [] with
  | none => t
  | some (_, .nil) => t
  | some (pathZ, .node zc _ _ _ zl zr) =>
    match zl, zr with
    | .nil, _ =>
        let path2 := refreshFrames (maxOf zr) pathZ
        if zc = .black then delFixup (fixupFuel t (path2.length)) zr path2
        else plug zr path2
    | .node lc ls la lm ll lr, .nil =>
        let zl2 : RBT := .node lc ls la lm ll lr
        let path2 := refreshFrames (maxOf zl2) pathZ
        if zc = .black then delFixup (fixupFuel t (path2.length)) zl2 path2
        else plug zl2 path2
    | .node _ _ _ _ _ _, .node rc rs ra rm rl rr =>
      match rl with
      | .nil =>
          -- y == z->right: x = y->right, x_parent = y; y takes z's place
          let ySub := updMax (.node zc rs ra rm zl rr)
          let path2 := refreshFrames (maxOf ySub) pathZ
          let yFrame : Frame := ⟨zc, rs, ra, maxOf ySub, .right, zl⟩
          if rc = .black then delFixup (fixupFuel t (path2.length + 1)) rr (yFrame :: path2)
          else plug rr (yFrame :: path2)
      | .node _ _ _ _ _ _ =>
          -- y deeper inside z->right: splice y out, then substitute for z
          let zr2 : RBT := .node rc rs ra rm rl rr
          match minDescend zr2 [] with
          | (pathY, .node yc ys ya ym _ yr2) =>
              let pathY2 := refreshFrames (maxOf yr2) pathY
              let zr3 := plug yr2 pathY2
              let ySub := updMax (.node zc ys ya ym zl zr3)
              let path2 := refreshFrames (maxOf ySub) pathZ
              let yFrame : Frame := ⟨zc, ys, ya, maxOf ySub, .right, zl⟩
              if yc = .black then
                delFixup (fixupFuel t (pathY2.length + path2.length + 1)) yr2
                  (pathY2 ++ yFrame :: path2)
              else plug yr2 (pathY2 ++ yFrame :: path2)
          | (_, .nil) => t

/-- The in-place `freed->size += delta; update_max_upwards(freed)` commonly
performed by the coalescing steps of `deallocate`. -/
def bumpSize (t : RBT) (a delta : Nat) : RBT :=
  match findPath t a [] with
  | none => t
  | some (_, .nil) => t
  | some (path, .node c s ad m l r) =>
      let z2 := updMax (.node c (s + delta) ad m l r)
      plug z2 (refreshFrames (maxOf z2) path)

/-- `FreeListAllocator::successor(x)`: the inorder successor reached through
child/parent pointers.  On the address-ordered tree this is the node with the
least address above `x`'s; the inorder node list being address-sorted there,
it is the first inorder node past `x`. -/
def succNode (t : RBT) (a : Nat) : Option (Nat × Nat) :=
  ((nodesOf t).filter (fun q => decide (a < q.1))).head?

/-- `FreeListAllocator::predecessor(x)`: mirror image of `succNode`. -/
def predNode (t : RBT) (a : Nat) : Option (Nat × Nat) :=
  ((nodesOf t).filter (fun q => decide (q.1 < a))).getLast?

/-- The inner skip loop of `allocate`'s candidate walk:
`curr = successor(curr)` repeated `while (curr != nil_ && curr->size <
min_size)`, i.e. the next node in address order whose size reaches
`minSize`. -/
def succFit (t : RBT) (a minSize : Nat) : Option (Nat × Nat) :=
  ((nodesOf t).filter (fun q => decide (a < q.1) && decide (minSize ≤ q.2))).head?

end RBT

open RBT

/-! ## The allocator state machine -/

/-- Wrap-around bound of `std::size_t` (64-bit build). -/
def W64 : Nat := 2 ^ 64

/-- `std::size_t` addition. -/
def wadd (a b : Nat) : Nat := (a + b) % W64

/-- `std::size_t` subtraction (wraps on underflow). -/
def wsub (a b : Nat) : Nat := (a + (W64 - b % W64)) % W64

/-- `(size + 15) & ~std::size_t(15)` in 64-bit arithmetic. -/
def roundUp16 (n : Nat) : Nat := (n + 15) % W64 / 16 * 16

/-- Round an address up to a multiple of `al` (`std::align`'s adjustment);
call sites guarantee `al ≥ 16`. -/
def alignUp (a al : Nat) : Nat := (a + al - 1) / al * al

/-- `AllocError` (free_list.hpp). -/
inductive AllocError where
  | OutOfMemory
  | InvalidAlignment
  | DoubleFree
  | BadPointer
deriving DecidableEq

/-- `AllocationResult` (free_list.hpp): the returned pointer (an address
here), its offset from the arena base, and the actual size consumed. -/
structure AllocationResult where
  ptr : Nat
  offset : Nat
  actual_size : Nat
deriving DecidableEq

/-- State of one `FreeListAllocator`: base address and capacity (`base_`,
`size_`), the red-black tree of large free blocks (`root_`), the eight
segregated small-class lists (`free_lists_`, each a LIFO list of block
addresses; the class index determines the class size), and the statistics
`allocated_` and `free_blocks_`. -/
structure AllocState where
  base : Nat
  cap : Nat
  root : RBT
  freeLists : List (List Nat)
  allocated : Nat
  freeBlocks : Nat
deriving DecidableEq

/-- Outcome of an allocator call: a value plus the successor state, an error
code plus the successor state, or `fatal` for `std::abort()` (the FATAL
guards and `verify_tree` failures). -/
inductive AllocOutcome (α : Type) where
  | ok (val : α) (s : AllocState)
  | err (e : AllocError) (s : AllocState)
  | fatal
deriving DecidableEq

/-- `kSmallBlockQuantum` (free_list.hpp). -/
def kSmallBlockQuantum : Nat := 16

/-- `kNumSmallClasses` (free_list.hpp). -/
def kNumSmallClasses : Nat := 8

/-- `kMaxSmallBlockSize = kSmallBlockQuantum * kNumSmallClasses`. -/
def kMaxSmallBlockSize : Nat := kSmallBlockQuantum * kNumSmallClasses

/-- `kMinBlockSize = sizeof(FreeBlock)`: 48 bytes on a 64-bit build
(size, parent, left, right, subtree_max at 8 bytes each, color padded;
`static_assert(sizeof(FreeBlock) <= 48)`). -/
def kMinBlockSize : Nat := 48

/-- Read the small-class list with the given index (`free_lists_[idx]`). -/
def getList (ls : List (List Nat)) (i : Nat) : List Nat := ls.getD i []

/-- Replace the small-class list with the given index. -/
def setList (ls : List (List Nat)) (i : Nat) (v : List Nat) : List (List Nat) :=
  ls.set i v

/-- The candidate walk of `allocate`'s tree path: starting from the
`find_first_fit` result, try `std::align` on each candidate; on failure move
to the next free node in address order of sufficient size (`successor`
walk).  Returns the first candidate whose block can hold an
`internalAlign`-aligned span of `internalSize` bytes.  The fuel is the node
count, enough to visit every candidate once; the walk performs no state
change (the C++ mutates only after `std::align` succeeds). -/
def searchLoop (t : RBT) (minSize al isz : Nat) :
    Option (Nat × Nat) → Nat → Option (Nat × Nat)
  | _, 0 => none
  | none, _ => none
  | some (a, szv), fuel + 1 =>
      let aligned := alignUp a al
      if aligned + isz ≤ a + szv then some (a, szv)
      else searchLoop t minSize al isz (succFit t a minSize) fuel

/-- The common tail of `allocate`'s tree path: `if (absorbed) { internal_size
+= remainder; free_blocks_--; }` has already been folded into `finalSize` and
`absorbed`; perform `allocated_ += internal_size`, run `verify_tree(root_)`
(abort on failure) and return the `AllocationResult`. -/
def finishAlloc (s : AllocState) (t : RBT) (lists : List (List Nat))
    (aligned finalSize : Nat) (absorbed : Bool) : AllocOutcome AllocationResult :=
  if verifyTree t then
    .ok ⟨aligned, aligned - s.base, finalSize⟩
      { s with root := t, freeLists := lists,
               allocated := wadd s.allocated finalSize,
               freeBlocks := if absorbed then wsub s.freeBlocks 1 else s.freeBlocks }
  else .fatal

/-- Pre-padding handling of `allocate`'s tree path: a leading gap of at least
one quantum becomes a small-class block (small gap) or goes back into the
tree (large gap, `none` = FATAL inside `insert_node`). -/
def gapStep (t1 : RBT) (lists : List (List Nat)) (ca prePad : Nat) :
    Option (RBT × List (List Nat)) :=
  if kSmallBlockQuantum ≤ prePad then
    if prePad ≤ kMaxSmallBlockSize then
      some (t1, setList lists (prePad / kSmallBlockQuantum - 1)
        (ca :: getList lists (prePad / kSmallBlockQuantum - 1)))
    else
      match insert_node t1 prePad ca with
      | none => none
      | some t2 => some (t2, lists)
  else some (t1, lists)

/-- Trailing-remainder handling of `allocate`'s tree path: the remainder goes
back into the tree when it can hold a `FreeBlock`, onto a small list when it
is at least one quantum (the `≤ kMaxSmallBlockSize` sub-check is transcribed
although it cannot fail there), and is otherwise absorbed into the
allocation. -/
def remainderStep (s : AllocState) (t2 : RBT) (lists2 : List (List Nat))
    (aligned isz remainder : Nat) : AllocOutcome AllocationResult :=
  if kMinBlockSize ≤ remainder then
    match insert_node t2 remainder (aligned + isz) with
    | none => .fatal
    | some t3 => finishAlloc s t3 lists2 aligned isz false
  else if kSmallBlockQuantum ≤ remainder then
    if remainder ≤ kMaxSmallBlockSize then
      finishAlloc s t2
        (setList lists2 (remainder / kSmallBlockQuantum - 1)
          ((aligned + isz) :: getList lists2 (remainder / kSmallBlockQuantum - 1)))
        aligned isz false
    else finishAlloc s t2 lists2 aligned (isz + remainder) true
  else finishAlloc s t2 lists2 aligned (isz + remainder) true

/-- The tree path of `FreeListAllocator::allocate` (step 2), entered when the
small-class fast path does not serve the request.  `internalSize` is the
16-byte-rounded request, `internalAlign` the clamped alignment: find a
candidate (`find_first_fit` plus the successor walk on `std::align` failure),
remove it from the tree, split off pre-padding and trailing remainder, update
the statistics and verify the tree. -/
def allocateTree (s : AllocState) (internalSize internalAlign : Nat) :
    AllocOutcome AllocationResult :=
  match searchLoop s.root (Nat.max internalSize kMinBlockSize) internalAlign internalSize
      (find_first_fit s.root (Nat.max internalSize kMinBlockSize)) (sizeRBT s.root + 1) with
  | none => .err .OutOfMemory s
  | some (ca, csz) =>
    match gapStep (delete_node s.root ca) s.freeLists ca (alignUp ca internalAlign - ca) with
    | none => .fatal
    | some (t2, lists2) =>
        remainderStep s t2 lists2 (alignUp ca internalAlign) internalSize
          (csz - (alignUp ca internalAlign - ca) - internalSize)

/-- `FreeListAllocator::allocate(size, alignment)`.  A zero size is treated
as 1; the alignment is clamped to at least 16 (`internal_align`) and the size
rounded up to the 16-byte quantum (`internal_size`); a small-class request
with a stocked list is served O(1) from the list head; otherwise the request
goes to the red-black tree (`allocateTree`). -/
def allocate (s : AllocState) (size alignment : Nat) : AllocOutcome AllocationResult :=
  let size1 := if size = 0 then 1 else size
  let internalAlign := Nat.max alignment 16
  let internalSize := roundUp16 size1
  if internalSize ≤ kMaxSmallBlockSize ∧ kSmallBlockQuantum ≤ internalSize then
    let idx := internalSize / kSmallBlockQuantum - 1
    if idx < kNumSmallClasses ∧ getList s.freeLists idx ≠ [] then
      match getList s.freeLists idx with
      | [] => .fatal
      | nodeAddr :: rest =>
          .ok ⟨nodeAddr, nodeAddr - s.base, internalSize⟩
            { s with freeLists := setList s.freeLists idx rest,
                     allocated := wadd s.allocated internalSize,
                     freeBlocks := wsub s.freeBlocks 1 }
    else allocateTree s internalSize internalAlign
  else allocateTree s internalSize internalAlign

/-- Step 2 of `deallocate`: coalesce the freed block with its address
successor when physically adjacent (`freed_end == succ`), with the FATAL
guard on a garbage successor size (`none`).  Returns the tree, the freed
block's (possibly grown) size, and the free-block count. -/
def coalesceSucc (cap : Nat) (t1 : RBT) (p actual fb1 : Nat) :
    Option (RBT × Nat × Nat) :=
  match succNode t1 p with
  | some (sa, ssz) =>
      if p + actual = sa then
        if cap < ssz ∨ ssz = 0 then none
        else some (bumpSize (delete_node t1 sa) p ssz, actual + ssz, wsub fb1 1)
      else some (t1, actual, fb1)
  | none => some (t1, actual, fb1)

/-- Step 3 of `deallocate`: coalesce with the address predecessor when
physically adjacent (`prev_end == freed`), deleting the freed node and
growing the predecessor, with the FATAL guard on a garbage freed size. -/
def coalescePred (cap : Nat) (t3 : RBT) (p freed2 fb2 : Nat) :
    Option (RBT × Nat) :=
  match predNode t3 p with
  | some (pa, psz) =>
      if pa + psz = p then
        if cap < freed2 ∨ freed2 = 0 then none
        else some (bumpSize (delete_node t3 p) pa freed2, wsub fb2 1)
      else some (t3, fb2)
  | none => some (t3, fb2)

/-- The tree path of `deallocate`: insert the freed block as a tree node
(FATAL guards inside `insert_node`), count it free and subtract the bytes,
coalesce with successor then predecessor, and verify the tree. -/
def deallocTree (s : AllocState) (p actual : Nat) : AllocOutcome Unit :=
  match insert_node s.root actual p with
  | none => .fatal
  | some t1 =>
    match coalesceSucc s.cap t1 p actual (wadd s.freeBlocks 1) with
    | none => .fatal
    | some (t3, freed2, fb2) =>
      match coalescePred s.cap t3 p freed2 fb2 with
      | none => .fatal
      | some (t5, fb3) =>
        if verifyTree t5 then
          .ok () { s with root := t5, allocated := wsub s.allocated actual,
                          freeBlocks := fb3 }
        else .fatal

/-- `FreeListAllocator::deallocate(ptr, size)`.  A null pointer is a no-op
success; a pointer outside `[base_, base_ + size_)` is `BadPointer`; a size
above the remaining span or below one quantum hits the FATAL guard
(`std::abort`); a misaligned pointer is `InvalidAlignment`.  A small-class
size is pushed onto its list; otherwise the block is inserted into the tree
and coalesced with its address successor and predecessor when physically
adjacent, with the FATAL garbage-size guards of the source. -/
def deallocate (s : AllocState) (ptr : Option Nat) (size : Nat) : AllocOutcome Unit :=
  match ptr with
  | none => .ok () s
  | some p =>
    if p < s.base ∨ s.base + s.cap ≤ p then .err .BadPointer s
    else
      let remaining := s.base + s.cap - p
      if remaining < size ∨ size < kSmallBlockQuantum then .fatal
      else if p % 16 ≠ 0 then .err .InvalidAlignment s
      else
        let actual := size
        if actual ≤ kMaxSmallBlockSize then
          let idx0 := actual / kSmallBlockQuantum - 1
          let idx := if kNumSmallClasses ≤ idx0 then kNumSmallClasses - 1 else idx0
          .ok () { s with freeLists := setList s.freeLists idx (p :: getList s.freeLists idx),
                          allocated := wsub s.allocated actual,
                          freeBlocks := wadd s.freeBlocks 1 }
        else if actual < kMinBlockSize then
          -- dead in practice (actual > kMaxSmallBlockSize here); transcribed
          -- from the source's fallback onto the last small class
          let idx := kNumSmallClasses - 1
          .ok () { s with freeLists := setList s.freeLists idx (p :: getList s.freeLists idx),
                          allocated := wsub s.allocated actual,
                          freeBlocks := wadd s.freeBlocks 1 }
        else deallocTree s p actual

/-- `FreeListAllocator::FreeListAllocator(base, size)`: a fresh allocator
holds one free block spanning the whole arena, inserted into the empty tree,
with one free block counted, empty small-class lists and nothing allocated.
`none` models the constructor tripping `insert_node`'s FATAL guards (zero or
over-1-GiB capacity, misaligned base). -/
def initState (base cap : Nat) : Option AllocState :=
  match insert_node .nil cap base with
  | none => none
  | some t => some ⟨base, cap, t, [[], [], [], [], [], [], [], []], 0, 1⟩

/-- `bytes_allocated()`. -/
def bytes_allocated (s : AllocState) : Nat := s.allocated

/-- `bytes_free()` (`size_ - allocated_`, `std::size_t` arithmetic). -/
def bytes_free (s : AllocState) : Nat := wsub s.cap s.allocated

/-- `largest_free_block()`: 0 for the empty tree, else the root's
`subtree_max`. -/
def largest_free_block (s : AllocState) : Nat := maxOf s.root

/-- `free_block_count()`. -/
def free_block_count (s : AllocState) : Nat := s.freeBlocks

/-- `capacity()`. -/
def capacity (s : AllocState) : Nat := s.cap

/-- Allocator states reachable through the public interface: a freshly
constructed allocator, and any state produced by an `allocate` or
`deallocate` call that returns (successfully or with an error code) from a
reachable state. -/
inductive Reachable : AllocState → Prop where
  | init (base cap : Nat) (s : AllocState) :
      initState base cap = some s → Reachable s
  | alloc_ok (s : AllocState) (size al : Nat) (r : AllocationResult) (s2 : AllocState) :
      Reachable s → allocate s size al = .ok r s2 → Reachable s2
  | alloc_err (s : AllocState) (size al : Nat) (e : AllocError) (s2 : AllocState) :
      Reachable s → allocate s size al = .err e s2 → Reachable s2
  | dealloc_ok (s : AllocState) (p : Option Nat) (size : Nat) (s2 : AllocState) :
      Reachable s → deallocate s p size = .ok () s2 → Reachable s2
  | dealloc_err (s : AllocState) (p : Option Nat) (size : Nat) (e : AllocError) (s2 : AllocState) :
      Reachable s → deallocate s p size = .err e s2 → Reachable s2

/-! ## Error paths leave the state untouched -/

/-- A tree accepted by `verify_tree` satisfies the `subtree_max` equation at
every node. -/
theorem verifyTree_maxOk (t : RBT) (h : verifyTree t = true) : maxOk t = true := by
  induction t with
  | nil => rfl
  | node c s a m l r ihl ihr =>
    simp only [verifyTree, Bool.and_eq_true] at h
    simp only [maxOk, Bool.and_eq_true]
    exact ⟨⟨ihl h.1.1.2, ihr h.1.2⟩, h.2⟩

/-- Helper: `finishAlloc` succeeds or aborts, never an error code. -/
theorem finishAlloc_not_err (s : AllocState) (t : RBT) (lists : List (List Nat))
    (aligned finalSize : Nat) (absorbed : Bool) (e : AllocError) (s2 : AllocState) :
    finishAlloc s t lists aligned finalSize absorbed ≠ .err e s2 := by
  unfold finishAlloc
  split <;> simp

/-- Helper: the remainder handling succeeds or aborts, never an error code. -/
theorem remainderStep_not_err (s : AllocState) (t2 : RBT) (lists2 : List (List Nat))
    (aligned isz remainder : Nat) (e : AllocError) (s2 : AllocState) :
    remainderStep s t2 lists2 aligned isz remainder ≠ .err e s2 := by
  unfold remainderStep
  repeat' split
  all_goals first
    | apply finishAlloc_not_err
    | simp

/-- Helper: the tree path of `allocate` errs only with `OutOfMemory`, and
then returns the caller's state unchanged (the search walk is const; state is
mutated only after `std::align` succeeds on a candidate). -/
theorem allocateTree_err (s : AllocState) (isz ial : Nat) (e : AllocError)
    (s2 : AllocState) (h : allocateTree s isz ial = .err e s2) :
    s2 = s ∧ e = .OutOfMemory := by
  unfold allocateTree at h
  split at h
  · injection h with h1 h2
    exact ⟨h2.symm, h1.symm⟩
  · split at h
    · exact (AllocOutcome.noConfusion h)
    · exact absurd h (remainderStep_not_err _ _ _ _ _ _ _ _)

/-- Helper: `allocate` errs only with `OutOfMemory` and then changes
nothing. -/
theorem allocate_err_eq (s : AllocState) (size al : Nat) (e : AllocError)
    (s2 : AllocState) (h : allocate s size al = .err e s2) :
    s2 = s ∧ e = .OutOfMemory := by
  simp only [allocate] at h
  split_ifs at h
  all_goals first
    | exact allocateTree_err _ _ _ _ _ h
    | (split at h <;> simp_all)

/-- Helper: the tree path of `deallocate` succeeds or aborts, never an error
code. -/
theorem deallocTree_not_err (s : AllocState) (p actual : Nat) (e : AllocError)
    (s2 : AllocState) : deallocTree s p actual ≠ .err e s2 := by
  unfold deallocTree
  repeat' split
  all_goals simp

/-- Helper: every error code returned by `deallocate` leaves the state
unchanged. -/
theorem deallocate_err_eq (s : AllocState) (p : Option Nat) (size : Nat)
    (e : AllocError) (s2 : AllocState) (h : deallocate s p size = .err e s2) :
    s2 = s := by
  cases p with
  | none =>
    simp only [deallocate] at h
    exact (AllocOutcome.noConfusion h)
  | some q =>
    simp only [deallocate] at h
    split_ifs at h
    all_goals first
      | (injection h with h1 h2; exact h2.symm)
      | exact (AllocOutcome.noConfusion h)
      | exact absurd h (deallocTree_not_err _ _ _ _ _)

/-- C4.  Whenever `allocate` fails with `OutOfMemory`, the allocator state is
left entirely untouched: `bytes_allocated`, `free_block_count`, every
small-class list and the free tree equal their values before the call. -/
theorem allocate_oom_state_unchanged (s : AllocState) (size al : Nat)
    (s2 : AllocState) (h : allocate s size al = .err .OutOfMemory s2) :
    s2 = s :=
  (allocate_err_eq s size al .OutOfMemory s2 h).1

/-! ## The subtree_max invariant over reachable states -/

/-- Helper: a successful `finishAlloc` passed `verify_tree` and installs the
verified tree. -/
theorem finishAlloc_ok (s : AllocState) (t : RBT) (lists : List (List Nat))
    (aligned finalSize : Nat) (absorbed : Bool) (r : AllocationResult)
    (s2 : AllocState) (h : finishAlloc s t lists aligned finalSize absorbed = .ok r s2) :
    verifyTree s2.root = true := by
  unfold finishAlloc at h
  split at h
  next hv =>
    injection h with h1 h2
    rw [← h2]
    exact hv
  next => exact (AllocOutcome.noConfusion h)

/-- Helper: a successful remainder step ends in a verified tree. -/
theorem remainderStep_ok (s : AllocState) (t2 : RBT) (lists2 : List (List Nat))
    (aligned isz remainder : Nat) (r : AllocationResult) (s2 : AllocState)
    (h : remainderStep s t2 lists2 aligned isz remainder = .ok r s2) :
    verifyTree s2.root = true := by
  unfold remainderStep at h
  repeat' split at h
  all_goals first
    | exact finishAlloc_ok _ _ _ _ _ _ _ _ h
    | exact (AllocOutcome.noConfusion h)

/-- Helper: a successful tree-path allocation ends in a verified tree. -/
theorem allocateTree_ok (s : AllocState) (isz ial : Nat) (r : AllocationResult)
    (s2 : AllocState) (h : allocateTree s isz ial = .ok r s2) :
    verifyTree s2.root = true := by
  unfold allocateTree at h
  split at h
  · exact (AllocOutcome.noConfusion h)
  · split at h
    · exact (AllocOutcome.noConfusion h)
    · exact remainderStep_ok _ _ _ _ _ _ _ _ h

/-- Helper: a successful `allocate` preserves the `subtree_max` invariant:
the small-class fast path leaves the tree untouched, the tree path runs
`verify_tree` before returning. -/
theorem allocate_ok_maxOk (s : AllocState) (size al : Nat) (r : AllocationResult)
    (s2 : AllocState) (h : allocate s size al = .ok r s2)
    (hm : maxOk s.root = true) : maxOk s2.root = true := by
  simp only [allocate] at h
  split_ifs at h
  all_goals first
    | exact verifyTree_maxOk _ (allocateTree_ok _ _ _ _ _ h)
    | (split at h
       · exact (AllocOutcome.noConfusion h)
       · injection h with h1 h2
         rw [← h2]
         exact hm)

/-- Helper: a successful tree-path deallocation ends in a verified tree. -/
theorem deallocTree_ok (s : AllocState) (p actual : Nat) (s2 : AllocState)
    (h : deallocTree s p actual = .ok () s2) : verifyTree s2.root = true := by
  unfold deallocTree at h
  repeat' split at h
  all_goals first
    | exact (AllocOutcome.noConfusion h)
    | (injection h with h1 h2
       rw [← h2]
       assumption)

/-- Helper: a successful `deallocate` preserves the `subtree_max` invariant:
the null and small-class paths leave the tree untouched, the tree path runs
`verify_tree` before returning. -/
theorem deallocate_ok_maxOk (s : AllocState) (p : Option Nat) (size : Nat)
    (s2 : AllocState) (h : deallocate s p size = .ok () s2)
    (hm : maxOk s.root = true) : maxOk s2.root = true := by
  cases p with
  | none =>
    simp only [deallocate] at h
    injection h with h1 h2
    rw [← h2]
    exact hm
  | some q =>
    simp only [deallocate] at h
    split_ifs at h
    all_goals first
      | exact (AllocOutcome.noConfusion h)
      | exact verifyTree_maxOk _ (deallocTree_ok _ _ _ _ h)
      | (injection h with h1 h2; rw [← h2]; exact hm)

/-- Helper: the constructor's single whole-arena block satisfies the
invariant. -/
theorem initState_maxOk (base cap : Nat) (s : AllocState)
    (h : initState base cap = some s) : maxOk s.root = true := by
  unfold initState at h
  split at h
  · exact (Option.noConfusion h)
  next t ht =>
    injection h with h1
    rw [← h1]
    simp only [insert_node] at ht
    split_ifs at ht
    injection ht with ht1
    rw [← ht1]
    simp [insertDescend, refreshFrames, insFixupGo, blackenRoot, setColor, maxOk, maxOf]

/-- C2.  Every allocator state reachable by any sequence of `allocate` and
`deallocate` calls has a free tree in which every node `n` satisfies
`n.subtree_max = max(n.size, n.left.subtree_max, n.right.subtree_max)`, the
sentinel's `subtree_max` counting as 0. -/
theorem reachable_subtree_max_correct (s : AllocState) (h : Reachable s) :
    maxOk s.root = true := by
  induction h with
  | init base cap s0 hinit => exact initState_maxOk base cap s0 hinit
  | alloc_ok s0 size al r s2 _ hstep ih => exact allocate_ok_maxOk s0 size al r s2 hstep ih
  | alloc_err s0 size al e s2 _ hstep ih =>
    rw [(allocate_err_eq s0 size al e s2 hstep).1]
    exact ih
  | dealloc_ok s0 p size s2 _ hstep ih => exact deallocate_ok_maxOk s0 p size s2 hstep ih
  | dealloc_err s0 p size e s2 _ hstep ih =>
    rw [deallocate_err_eq s0 p size e s2 hstep]
    exact ih

/-- Sample fresh allocator over a 1024-byte arena based at address 0. -/
def sample1024 : AllocState :=
  ⟨0, 1024, .node .black 1024 0 1024 .nil .nil, [[], [], [], [], [], [], [], []], 0, 1⟩

/-- Witness for `reachable_subtree_max_correct`: the freshly constructed
1024-byte allocator is reachable and its tree satisfies the invariant. -/
theorem reachable_subtree_max_correct_witness :
    Reachable sample1024 ∧ maxOk sample1024.root = true :=
  have hr : Reachable sample1024 := Reachable.init 0 1024 sample1024 (by decide)
  ⟨hr, reachable_subtree_max_correct sample1024 hr⟩

/-- The error component of an outcome, if any. -/
def errOf {α : Type} : AllocOutcome α → Option AllocError
  | .err e _ => some e
  | _ => none

/-- C3 is refuted by this evaluation: `deallocate` with a valid in-range
pointer and a size below one quantum (here 8 bytes on a fresh 1024-byte
allocator) reaches the `FATAL: deallocate with invalid size` guard and calls
`std::abort()` instead of returning an error value. -/
theorem deallocate_small_size_aborts :
    deallocate sample1024 (some 0) 8 = .fatal := by decide

/-- C5 is refuted by this evaluation: `allocate(16, 3)` on a fresh 1024-byte
allocator does not return `InvalidAlignment`; the alignment is clamped to 16
(`internal_align = max(alignment, 16)`) with no power-of-two validation
anywhere, and the allocation succeeds. -/
theorem allocate_alignment_three_succeeds :
    allocate sample1024 16 3 =
      .ok ⟨0, 0, 16⟩
        ⟨0, 1024, .node .black 1008 16 1008 .nil .nil,
          [[], [], [], [], [], [], [], []], 16, 1⟩ ∧
    errOf (allocate sample1024 16 3) = none := by
  constructor <;> decide

/-- C10.  For every pointer inside the allocator's byte range whose address
is not a multiple of 16, `deallocate` called with a size in the accepted
range (at most the remaining span and at least one quantum, so that the
size-check abort is not reached) returns `InvalidAlignment` and leaves the
allocator state unchanged. -/
theorem deallocate_misaligned_invalid_alignment (s : AllocState) (p size : Nat)
    (h1 : s.base ≤ p) (h2 : p < s.base + s.cap)
    (h3 : size ≤ s.base + s.cap - p) (h4 : 16 ≤ size)
    (h5 : p % 16 ≠ 0) :
    deallocate s (some p) size = .err .InvalidAlignment s := by
  have c1 : ¬(p < s.base ∨ s.base + s.cap ≤ p) := by omega
  have c2 : ¬(s.base + s.cap - p < size ∨ size < kSmallBlockQuantum) := by
    simp only [kSmallBlockQuantum]
    omega
  simp only [deallocate]
  rw [if_neg c1, if_neg c2, if_pos h5]

/-- Witness for `deallocate_misaligned_invalid_alignment`: address 8 of the
fresh 1024-byte allocator, size 16. -/
theorem deallocate_misaligned_invalid_alignment_witness :
    deallocate sample1024 (some 8) 16 = .err .InvalidAlignment sample1024 :=
  deallocate_misaligned_invalid_alignment sample1024 8 16 (by decide) (by decide)
    (by decide) (by decide) (by decide)

/-- Witness for `allocate_oom_state_unchanged`: requesting `capacity + 1`
bytes of a fresh 1024-byte allocator yields `OutOfMemory` and the state is
returned unchanged. -/
theorem allocate_oom_state_unchanged_witness :
    allocate sample1024 1025 16 = .err .OutOfMemory sample1024 ∧
    (∀ s2 : AllocState, allocate sample1024 1025 16 = .err .OutOfMemory s2 → s2 = sample1024) :=
  ⟨by decide, fun s2 h => allocate_oom_state_unchanged sample1024 1025 16 s2 h⟩

/-! ## Allocation / deallocation statistics -/

/-- Helper: `wsub` undoes `wadd` below the `size_t` bound. -/
theorem wadd_wsub_cancel (a x : Nat) (ha : a < W64) : wsub (wadd a x) x = a := by
  have hW : W64 = 18446744073709551616 := by norm_num [W64]
  unfold wsub wadd
  rw [hW] at ha ⊢
  omega

/-- Helper: a successful `finishAlloc` adds exactly the returned
`actual_size` to `allocated_`. -/
theorem finishAlloc_ok_allocated (s : AllocState) (t : RBT) (lists : List (List Nat))
    (aligned finalSize : Nat) (absorbed : Bool) (r : AllocationResult)
    (s2 : AllocState) (h : finishAlloc s t lists aligned finalSize absorbed = .ok r s2) :
    s2.allocated = wadd s.allocated finalSize ∧ r.actual_size = finalSize := by
  unfold finishAlloc at h
  split at h
  · injection h with h1 h2
    constructor
    · rw [← h2]
    · rw [← h1]
  · exact (AllocOutcome.noConfusion h)

/-- Helper: a successful remainder step adds the returned `actual_size`. -/
theorem remainderStep_ok_allocated (s : AllocState) (t2 : RBT)
    (lists2 : List (List Nat)) (aligned isz remainder : Nat)
    (r : AllocationResult) (s2 : AllocState)
    (h : remainderStep s t2 lists2 aligned isz remainder = .ok r s2) :
    s2.allocated = wadd s.allocated r.actual_size := by
  unfold remainderStep at h
  repeat' split at h
  all_goals first
    | exact (AllocOutcome.noConfusion h)
    | (obtain ⟨ha, hr⟩ := finishAlloc_ok_allocated _ _ _ _ _ _ _ _ h
       rw [ha, hr])

/-- Helper: a successful tree-path allocation adds the returned
`actual_size`. -/
theorem allocateTree_ok_allocated (s : AllocState) (isz ial : Nat)
    (r : AllocationResult) (s2 : AllocState)
    (h : allocateTree s isz ial = .ok r s2) :
    s2.allocated = wadd s.allocated r.actual_size := by
  unfold allocateTree at h
  split at h
  · exact (AllocOutcome.noConfusion h)
  · split at h
    · exact (AllocOutcome.noConfusion h)
    · exact remainderStep_ok_allocated _ _ _ _ _ _ _ _ h

/-- Helper: every successful `allocate` performs
`allocated_ += actual_size`. -/
theorem allocate_ok_allocated (s : AllocState) (size al : Nat)
    (r : AllocationResult) (s2 : AllocState)
    (h : allocate s size al = .ok r s2) :
    s2.allocated = wadd s.allocated r.actual_size := by
  simp only [allocate] at h
  split_ifs at h
  all_goals first
    | exact allocateTree_ok_allocated _ _ _ _ _ h
    | (split at h
       · exact (AllocOutcome.noConfusion h)
       · injection h with h1 h2
         rw [← h2, ← h1])

/-- Helper: a successful tree-path deallocation performs
`allocated_ -= actual_size`. -/
theorem deallocTree_ok_allocated (s : AllocState) (p actual : Nat)
    (s2 : AllocState) (h : deallocTree s p actual = .ok () s2) :
    s2.allocated = wsub s.allocated actual := by
  unfold deallocTree at h
  repeat' split at h
  all_goals first
    | exact (AllocOutcome.noConfusion h)
    | (injection h with h1 h2
       rw [← h2])

/-- Helper: every successful non-null `deallocate` performs
`allocated_ -= size`. -/
theorem deallocate_ok_allocated (s : AllocState) (p size : Nat)
    (s2 : AllocState) (h : deallocate s (some p) size = .ok () s2) :
    s2.allocated = wsub s.allocated size := by
  simp only [deallocate] at h
  split_ifs at h
  all_goals first
    | exact (AllocOutcome.noConfusion h)
    | exact deallocTree_ok_allocated _ _ _ _ h
    | (injection h with h1 h2
       rw [← h2])

/-- State after `allocate(64, 16)` on the fresh 1024-byte allocator: the
block was carved from the tree, the 960-byte remainder re-inserted. -/
def sampleAfterAlloc : AllocState :=
  ⟨0, 1024, .node .black 960 64 960 .nil .nil, [[], [], [], [], [], [], [], []], 64, 1⟩

/-- State after deallocating that block: freed to small-class list 3, never
coalesced. -/
def sampleAfterDealloc : AllocState :=
  ⟨0, 1024, .node .black 960 64 960 .nil .nil, [[], [], [], [0], [], [], [], []], 0, 2⟩

/-- C7's counterexample: on a fresh 1024-byte allocator,
`dealloc(alloc(64, 16))` (deallocating with the returned `actual_size`)
restores `bytes_allocated` but leaves `free_block_count` at 2, one more than
the 1 it had before the allocation: the 64-byte block was carved from the
tree but freed onto a small-class list, which is never coalesced. -/
theorem alloc_dealloc_free_count_not_restored :
    allocate sample1024 64 16 = .ok ⟨0, 0, 64⟩ sampleAfterAlloc ∧
    deallocate sampleAfterAlloc (some 0) 64 = .ok () sampleAfterDealloc ∧
    bytes_allocated sampleAfterDealloc = bytes_allocated sample1024 ∧
    free_block_count sample1024 = 1 ∧
    free_block_count sampleAfterDealloc = 2 := by
  refine ⟨by decide, by decide, by decide, by decide, by decide⟩

/-- C7 amended.  For every state and every `(size, align)` for which
allocation succeeds, immediately deallocating the returned block (with its
returned `actual_size`) restores `bytes_allocated` exactly;
`free_block_count` is not restored in general (see
`alloc_dealloc_free_count_not_restored`). -/
theorem alloc_dealloc_restores_bytes_allocated (s : AllocState) (size al : Nat)
    (r : AllocationResult) (s1 s2 : AllocState)
    (hbound : s.allocated < W64)
    (h1 : allocate s size al = .ok r s1)
    (h2 : deallocate s1 (some r.ptr) r.actual_size = .ok () s2) :
    bytes_allocated s2 = bytes_allocated s := by
  have e1 := allocate_ok_allocated _ _ _ _ _ h1
  have e2 := deallocate_ok_allocated _ _ _ _ h2
  unfold bytes_allocated
  rw [e2, e1, wadd_wsub_cancel _ _ hbound]

/-- Witness for `alloc_dealloc_restores_bytes_allocated` on the concrete
1024-byte run. -/
theorem alloc_dealloc_restores_bytes_allocated_witness :
    bytes_allocated sampleAfterDealloc = bytes_allocated sample1024 :=
  alloc_dealloc_restores_bytes_allocated sample1024 64 16 ⟨0, 0, 64⟩
    sampleAfterAlloc sampleAfterDealloc (by decide) (by decide) (by decide)

/-! ## Full deallocation does not fully coalesce -/

/-- C8's counterexample: the full sequence `alloc(64, 16)` then
`dealloc` of that single outstanding allocation, starting from the fresh
1024-byte allocator.  Afterwards `bytes_allocated == 0` holds, but
`free_block_count` is 2 (not 1: the 64-byte block sits on a small-class
list at the *front* of the arena, never coalesced) and
`largest_free_block` is 960, not the capacity 1024 — the small-class debris
sums exactly to the difference but is leading, not trailing. -/
theorem full_dealloc_not_single_block :
    allocate sample1024 64 16 = .ok ⟨0, 0, 64⟩ sampleAfterAlloc ∧
    deallocate sampleAfterAlloc (some 0) 64 = .ok () sampleAfterDealloc ∧
    bytes_allocated sampleAfterDealloc = 0 ∧
    free_block_count sampleAfterDealloc = 2 ∧
    largest_free_block sampleAfterDealloc = 960 ∧
    capacity sampleAfterDealloc = 1024 := by
  refine ⟨by decide, by decide, by decide, by decide, by decide, by decide⟩

/-- A fresh allocator over a `cap`-byte arena at base 0: the single
whole-arena block (what the constructor builds). -/
def freshState (cap : Nat) : AllocState :=
  ⟨0, cap, .node .black cap 0 cap .nil .nil, [[], [], [], [], [], [], [], []], 0, 1⟩

/-- The same arena after `allocate(64, 16)`. -/
def midState (cap : Nat) : AllocState :=
  ⟨0, cap, .node .black (cap - 64) 64 (cap - 64) .nil .nil,
    [[], [], [], [], [], [], [], []], 64, 1⟩

/-- The same arena after deallocating the 64-byte block. -/
def finState (cap : Nat) : AllocState :=
  ⟨0, cap, .node .black (cap - 64) 64 (cap - 64) .nil .nil,
    [[], [], [], [0], [], [], [], []], 0, 2⟩

/-- Helper: the constructor over a `cap`-byte arena builds `freshState`. -/
theorem fresh_init_eval (cap : Nat) (hlo : 112 ≤ cap)
    (hhi : cap ≤ 1024 * 1024 * 1024) :
    initState 0 cap = some (freshState cap) := by
  have hc1 : ¬(cap > 1024 * 1024 * 1024 ∨ cap = 0) := by omega
  simp [initState, insert_node, hc1, insertDescend, refreshFrames, insFixupGo,
      blackenRoot, setColor, freshState]

/-- Helper: `allocate(64, 16)` on the fresh arena carves the block at base,
re-inserting the `cap - 64` remainder. -/
theorem fresh_alloc64_eval (cap : Nat) (hlo : 112 ≤ cap)
    (hhi : cap ≤ 1024 * 1024 * 1024) :
    allocate (freshState cap) 64 16 = .ok ⟨0, 0, 64⟩ (midState cap) := by
  have hc2 : ¬(cap - 64 > 1024 * 1024 * 1024 ∨ cap - 64 = 0) := by omega
  have h64 : 64 ≤ cap := by omega
  have h48 : 48 ≤ cap - 0 - 64 := by omega
  simp [allocate, allocateTree, gapStep, remainderStep, finishAlloc,
      freshState, midState, find_first_fit, searchLoop, delete_node, findPath,
      delFixup, insert_node, insertDescend, refreshFrames, insFixupGo,
      blackenRoot, setColor, blacken, verifyTree, maxOf, sizeRBT, fixupFuel,
      roundUp16, alignUp, wadd, wsub, W64, kSmallBlockQuantum,
      kMaxSmallBlockSize, kMinBlockSize, kNumSmallClasses, getList, setList,
      hc2, h64, h48]
  exact fun hcon => absurd hcon (by omega)

/-- Helper: deallocating the 64-byte block pushes it onto small-class
list 3. -/
theorem mid_dealloc64_eval (cap : Nat) (hlo : 112 ≤ cap)
    (hhi : cap ≤ 1024 * 1024 * 1024) :
    deallocate (midState cap) (some 0) 64 = .ok () (finState cap) := by
  simp only [deallocate, midState, finState, getList, setList,
      kSmallBlockQuantum, kMaxSmallBlockSize, kMinBlockSize, kNumSmallClasses]
  rw [if_neg (show ¬(0 < 0 ∨ 0 + cap ≤ 0) by omega),
      if_neg (show ¬(0 + cap - 0 < 64 ∨ 64 < 16) by omega),
      if_neg (show ¬(0 % 16 ≠ 0) by omega),
      if_pos (show (64 : Nat) ≤ 128 by omega),
      if_neg (show ¬(8 : Nat) ≤ 64 / 16 - 1 by omega)]
  norm_num [wsub, wadd, W64]

/-- C8 amended.  After a sequence of allocations followed by deallocation of
every outstanding allocation (each passed its returned `actual_size`),
`bytes_allocated == 0` holds, but coalescence is not full: a freed block of a
small-class size lands on a segregated list and is never merged, so
`free_block_count` can exceed 1 and `largest_free_block` can be below
capacity, the small-class debris (not necessarily trailing) summing exactly
to the difference.  Shown for the sequence `alloc(64, 16); dealloc` on a
fresh arena of any capacity in `[112, 2^30]`. -/
theorem full_dealloc_small_debris (cap : Nat) (hlo : 112 ≤ cap)
    (hhi : cap ≤ 1024 * 1024 * 1024) :
    initState 0 cap = some (freshState cap) ∧
    allocate (freshState cap) 64 16 = .ok ⟨0, 0, 64⟩ (midState cap) ∧
    deallocate (midState cap) (some 0) 64 = .ok () (finState cap) ∧
    bytes_allocated (finState cap) = 0 ∧
    free_block_count (finState cap) = 2 ∧
    largest_free_block (finState cap) + 64 = capacity (finState cap) := by
  refine ⟨fresh_init_eval cap hlo hhi, fresh_alloc64_eval cap hlo hhi,
    mid_dealloc64_eval cap hlo hhi, rfl, rfl, ?_⟩
  simp only [largest_free_block, capacity, finState, maxOf]
  omega

/-- Witness for `full_dealloc_small_debris` at capacity 1024. -/
theorem full_dealloc_small_debris_witness :
    initState 0 1024 = some (freshState 1024) ∧
    allocate (freshState 1024) 64 16 = .ok ⟨0, 0, 64⟩ (midState 1024) ∧
    deallocate (midState 1024) (some 0) 64 = .ok () (finState 1024) ∧
    bytes_allocated (finState 1024) = 0 ∧
    free_block_count (finState 1024) = 2 ∧
    largest_free_block (finState 1024) + 64 = capacity (finState 1024) :=
  full_dealloc_small_debris 1024 (by decide) (by decide)

/-! ## BadPointer and the façade's ignored magic check -/

/-- C6 amended.  `FreeListAllocator::deallocate` returns `BadPointer` exactly
when the non-null pointer lies outside the allocator's byte range, and the
state is then unchanged; no other input produces `BadPointer` (in
particular, the header magic plays no role at this layer, and the façade's
`dealloc_raw` ignores a magic mismatch — see
`dealloc_raw_bad_magic_releases`). -/
theorem deallocate_badpointer_iff (s : AllocState) (p size : Nat) :
    ((p < s.base ∨ s.base + s.cap ≤ p) →
      deallocate s (some p) size = .err .BadPointer s) ∧
    (∀ s2 : AllocState, deallocate s (some p) size = .err .BadPointer s2 →
      (p < s.base ∨ s.base + s.cap ≤ p) ∧ s2 = s) := by
  constructor
  · intro hout
    simp only [deallocate]
    rw [if_pos hout]
  · intro s2 h
    simp only [deallocate] at h
    by_cases hout : p < s.base ∨ s.base + s.cap ≤ p
    · rw [if_pos hout] at h
      injection h with h1 h2
      exact ⟨hout, h2.symm⟩
    · exfalso
      rw [if_neg hout] at h
      split_ifs at h
      all_goals first
        | exact (AllocOutcome.noConfusion h)
        | (injection h with h1 h2; exact (AllocError.noConfusion h1))
        | exact deallocTree_not_err _ _ _ _ _ h

/-- Witness for `deallocate_badpointer_iff`: address 2048 lies outside the
fresh 1024-byte allocator and draws `BadPointer` with the state unchanged. -/
theorem deallocate_badpointer_iff_witness :
    deallocate sample1024 (some 2048) 64 = .err .BadPointer sample1024 :=
  (deallocate_badpointer_iff sample1024 2048 64).1 (by decide)

/-- Modelled from the spec: the allocation-header magic sentinel.  The struct
`AllocationHeader` carrying `kMagicValue` is code of this repository that is
not under src/ (only its users in visualization_arena.cpp and tracker.cpp
are); spec §3 gives the header layout with "`magic` — a fixed sentinel
(e.g., `0xA11C8E8D`) validating a live allocation". -/
def kMagicValue : Nat := 0xA11C8E8D

/-- The allocation-header words `dealloc_raw` reads: the `magic` word and the
header's `size` field. -/
structure HeaderView where
  magic : Nat
  hsize : Nat
deriving DecidableEq

/-- `kMaxShards` (visualization_arena.cpp). -/
def kMaxShards : Nat := 256

/-- The part of the sharded `VisualizationArena` state that `dealloc_raw`
touches: arena base and capacity, the per-shard `FreeListAllocator` states
(`create` builds all of them upfront), and the arena bytes `dealloc_raw`
reads — the 32-bit back-offset word just below each user pointer and the
header view at each raw address.  Event tracking is out of scope. -/
structure ArenaModel where
  arenaBase : Nat
  arenaCap : Nat
  shards : List AllocState
  backOff : Nat → Nat
  headers : Nat → HeaderView

/-- `VisualizationArena::dealloc_raw(ptr, size)` (sharded version).  Null is
a no-op.  The back-offset is read from below the user pointer and the header
located; the magic check `if (header->magic != AllocationHeader::kMagicValue)`
has an *empty body* — a mismatch is ignored and deallocation proceeds.  The
owning shard index is `(raw - base) / (cap / kMaxShards)`; an out-of-range or
missing shard returns silently.  The shard allocator's
`deallocate(raw_ptr, header->size)` result is explicitly discarded
(`(void)…`), so no error code ever reaches the caller; `none` models
`std::abort` inside `deallocate`. -/
def dealloc_raw (m : ArenaModel) (ptr : Option Nat) : Option ArenaModel :=
  match ptr with
  | none => some m
  | some up =>
    let raw := up - m.backOff up
    -- if (header->magic != kMagicValue) { /* empty: mismatch noted, ignored */ }
    let idx := (raw - m.arenaBase) / (m.arenaCap / kMaxShards)
    if kMaxShards ≤ idx then some m
    else
      match m.shards.get? idx with
      | none => some m
      | some sh =>
        match deallocate sh (some raw) (m.headers raw).hsize with
        | .ok _ sh2 => some { m with shards := m.shards.set idx sh2 }
        | .err _ sh2 => some { m with shards := m.shards.set idx sh2 }
        | .fatal => none

/-- A 256-shard arena (1024-byte shards) in which the header word at address
0 does *not* carry the magic value, with a back-offset of 16 below every user
pointer. -/
def badMagicModel : ArenaModel :=
  ⟨0, 262144,
   (List.range 256).map
     (fun i => ⟨1024 * i, 1024, .node .black 1024 (1024 * i) 1024 .nil .nil,
       [[], [], [], [], [], [], [], []], 0, 1⟩),
   fun _ => 16,
   fun _ => ⟨0xDEAD, 64⟩⟩

/-- Shard 0 of `badMagicModel` after `dealloc_raw(16)`: the 64-byte block at
raw address 0 was released onto small-class list 3 although the header magic
did not match (`allocated_` wrapped below zero, as the `size_t` arithmetic
does). -/
def afterBadMagic : AllocState :=
  ⟨0, 1024, .node .black 1024 0 1024 .nil .nil,
    [[], [], [], [0], [], [], [], []], 18446744073709551552, 2⟩

/-- C6's counterexample: `dealloc_raw` on a user pointer whose header magic
does not match `kMagicValue` neither returns `BadPointer` (its return type
carries no error at all) nor leaves the block alive: deallocation proceeds
and shard 0's free-block count rises from 1 to 2. -/
theorem dealloc_raw_bad_magic_releases :
    (badMagicModel.headers 0).magic ≠ kMagicValue ∧
    (dealloc_raw badMagicModel (some 16)).map (fun m2 => m2.shards.get? 0) =
      some (some afterBadMagic) ∧
    badMagicModel.shards.get? 0 = some (freshState 1024) ∧
    free_block_count (freshState 1024) = 1 ∧
    free_block_count afterBadMagic = 2 := by
  refine ⟨by decide, by decide, by decide, by decide, by decide⟩

end MmapViz
